import Mathlib

/-!
Shallow embedding of the MERN code-review backend (server.js together with
the code-routes router file). Mongo documents become Lean structures with
`_id` modelled as a natural number, the three collections become lists held
in a `State` record, and each Express handler becomes a pure function from
its request fields and the current state to either an HTTP error response
or a success payload (paired with the updated state when the handler
writes). Randomness (`Math.floor(Math.random() * n)`) is passed in as an
explicit `draw` argument, and bcrypt comparison is passed in as an opaque
boolean function, matching the spec's treatment of the hash as a one-way
verify collaborator.
-/

namespace CodeReview

/-- Identity record of the `User` mongoose model: unique `_id` (a natural
number here), `email`, bcrypt-hashed `password`, and `createdAt`. -/
structure User where
  id : Nat
  email : String
  password : String
  createdAt : Nat
deriving Repr, DecidableEq

/-- Snippet record of the `CodeSnippet` mongoose model (the router file's
`Code` model has the same shape): `_id`, the `code` text, a `language` tag
defaulting to "javascript", the owning `userId`, and `createdAt`. -/
structure Snippet where
  id : Nat
  code : String
  language : String
  userId : Nat
  createdAt : Nat
deriving Repr, DecidableEq

/-- Feedback record of the `Feedback` mongoose model: `_id`, the reviewed
snippet's `codeSnippetId`, the `reviewerId`, the `feedbackText`, and
`createdAt`. -/
structure Feedback where
  id : Nat
  codeSnippetId : Nat
  reviewerId : Nat
  feedbackText : String
  createdAt : Nat
deriving Repr, DecidableEq

/-- Database state: the three Mongo collections as lists in insertion
order (Mongo natural order for these append-only collections). -/
structure State where
  users : List User
  snippets : List Snippet
  feedbacks : List Feedback
deriving Repr, DecidableEq

/-- HTTP error answer `res.status(status).json(...)` carrying the `message`
field the handlers send. -/
structure ErrResponse where
  status : Nat
  message : String
deriving Repr, DecidableEq

/-- JavaScript truthiness test for an optional string request field:
`none` models an absent field, and the empty string is falsy, so the
source's `!field` guard holds exactly when `falsy field = true`. -/
def falsy : Option String → Bool
  | none => true
  | some s => s.isEmpty

/-- Login response payload (token omitted; the token service is modelled
separately): the `user` object the handler returns. -/
structure AuthSuccess where
  userId : Nat
  email : String
deriving Repr, DecidableEq

/-- Handler `POST /api/auth/login` of server.js: missing email or password
answers 400; an unknown email answers 401 "Invalid credentials"; a stored
user whose bcrypt comparison fails answers the same 401 "Invalid
credentials"; otherwise the user payload is returned. `bcryptCompare`
stands for `bcrypt.compare` (an opaque one-way verify collaborator). -/
def login (email password : Option String) (users : List User)
    (bcryptCompare : String → String → Bool) : Except ErrResponse AuthSuccess :=
  if falsy email || falsy password then
    .error ⟨400, "Email and password are required"⟩
  else
    match users.find? (fun u => u.email == email.getD "") with
    | none => .error ⟨401, "Invalid credentials"⟩
    | some user =>
      if bcryptCompare (password.getD "") user.password then
        .ok ⟨user.id, user.email⟩
      else .error ⟨401, "Invalid credentials"⟩

/-- Handler `POST /api/auth/register` of server.js restricted to its state
effect: missing field answers 400, duplicate email answers 409, otherwise
a user with the hashed password is appended. `hash` stands for
`bcrypt.hash`. -/
def register (email password : Option String) (users : List User)
    (hash : String → String) (freshId now : Nat) :
    Except ErrResponse (User × List User) :=
  if falsy email || falsy password then
    .error ⟨400, "Email and password are required"⟩
  else if (users.find? (fun u => u.email == email.getD "")).isSome then
    .error ⟨409, "Email already registered"⟩
  else
    let u : User := ⟨freshId, email.getD "", hash (password.getD ""), now⟩
    .ok (u, users ++ [u])

/-- Handler `POST /api/code` of server.js: a falsy `code` field answers
400 "Code is required" before any write; otherwise a snippet with
`language: language || 'javascript'` and the authenticated user's id is
created (with a fresh `_id` and the current time) and returned. -/
def submitCode (userId : Nat) (code language : Option String) (st : State)
    (freshId now : Nat) : Except ErrResponse (Snippet × State) :=
  if falsy code then .error ⟨400, "Code is required"⟩
  else
    let snip : Snippet :=
      { id := freshId, code := code.getD "",
        language := if falsy language then "javascript" else language.getD "",
        userId := userId, createdAt := now }
    .ok (snip, { st with snippets := st.snippets ++ [snip] })

/-- State after running the `POST /api/code` handler: unchanged on the
error branch (the handler returns before `CodeSnippet.create`). -/
def runSubmitCode (userId : Nat) (code language : Option String) (st : State)
    (freshId now : Nat) : State :=
  match submitCode userId code language st freshId now with
  | .ok (_, st2) => st2
  | .error _ => st

/-- Handler `POST /` of the code-routes router. The handler performs no
input validation, and the `Code` mongoose model (src/models/Code.js)
declares its `code` field as a plain `String` with no required validator,
so the save succeeds even when the code field is absent or empty: the
document is persisted (an absent code stored as the empty text here) and
the handler answers 201 "Code submitted". The `Code` schema stores no
language tag — the embedding reuses the shared `Snippet` record and fills
that field with the server.js schema default, a value no router claim
depends on — and the schema's embedded feedbacks subdocument array is not
touched by any embedded handler. -/
def routerSubmitCode (userId : Nat) (code : Option String) (st : State)
    (freshId now : Nat) : State :=
  { st with snippets := st.snippets ++
    [{ id := freshId, code := code.getD "", language := "javascript",
       userId := userId, createdAt := now }] }

/-- Snippets matching the filter `userId ≠ requesterId` used by both
random-pick handlers, in collection order. -/
def eligibleSnippets (snippets : List Snippet) (requesterId : Nat) : List Snippet :=
  snippets.filter (fun s => s.userId != requesterId)

/-- Handler `GET /api/code/random` of server.js: counts documents with
`userId ≠ requester`, answers 404 "No code available for review" when the
count is zero, and otherwise returns `findOne` on the same filter skipping
`draw` documents, where `draw = Math.floor(Math.random() * count)` (so
`draw < count` on every run). `findOne` past the end yields null, hence
the `Option` payload. -/
def pickRandom (requesterId : Nat) (snippets : List Snippet) (draw : Nat) :
    Except ErrResponse (Option Snippet) :=
  let count := (eligibleSnippets snippets requesterId).length
  if count = 0 then .error ⟨404, "No code available for review"⟩
  else .ok (eligibleSnippets snippets requesterId)[draw]?

/-- Handler `GET /random` of the code-routes router: fetches all snippets
with `user ≠ requester`; an empty result answers 200 with a null code
payload (`.ok none` here, not an error response); otherwise the array
element at `draw = Math.floor(Math.random() * length)` is returned. -/
def routerPickRandom (requesterId : Nat) (snippets : List Snippet) (draw : Nat) :
    Except ErrResponse (Option Snippet) :=
  let elig := eligibleSnippets snippets requesterId
  if elig.length = 0 then .ok none
  else .ok elig[draw]?

/-- Handler `GET /api/code/my-submissions` of server.js: fetches the
requester's snippets (no sort clause, so collection order), fetches the
feedbacks whose `codeSnippetId` is in the fetched snippet-id list, and
maps each snippet to itself extended with the feedbacks filtered to its
own `_id`. -/
def mySubmissions (ownerId : Nat) (st : State) : List (Snippet × List Feedback) :=
  let snippets := st.snippets.filter (fun s => s.userId == ownerId)
  let snippetIds := snippets.map (fun s => s.id)
  let feedbacks := st.feedbacks.filter (fun f => snippetIds.contains f.codeSnippetId)
  snippets.map (fun s => (s, feedbacks.filter (fun f => f.codeSnippetId == s.id)))

/-- Insertion step of the sort-by-createdAt-descending clause: places `s`
before the first element strictly older than it, keeping a descending
`createdAt` order. -/
def insertByCreatedAtDesc (s : Snippet) : List Snippet → List Snippet
  | [] => [s]
  | t :: ts =>
    if t.createdAt < s.createdAt then s :: t :: ts
    else t :: insertByCreatedAtDesc s ts

/-- Sort by `createdAt` descending (newest first), modelling the
descending-sort clause of the router `GET /mine` handler. -/
def sortByCreatedAtDesc : List Snippet → List Snippet
  | [] => []
  | s :: ss => insertByCreatedAtDesc s (sortByCreatedAtDesc ss)

/-- Handler `GET /mine` of the code-routes router: the requester's own
snippets sorted by `createdAt` descending (newest first). -/
def routerMine (userId : Nat) (st : State) : List Snippet :=
  sortByCreatedAtDesc (st.snippets.filter (fun s => s.userId == userId))

/-- Lookup `CodeSnippet.findById`: the first stored snippet whose `_id`
matches. -/
def findSnippetById (snippets : List Snippet) (sid : Nat) : Option Snippet :=
  snippets.find? (fun s => s.id == sid)

/-- Handler `POST /api/feedback` of server.js: a falsy `codeSnippetId` or
`feedbackText` answers 400 (the id field is modelled as `Option Nat`, with
`none` standing for the absent or empty, i.e. falsy, id string); an id
matching no stored snippet answers 404 "Code snippet not found"; a snippet
owned by the requester answers 403 "You cannot review your own code";
otherwise the feedback record is created and returned. The checks run in
exactly this source order. -/
def submitFeedback (reviewerId : Nat) (codeSnippetId : Option Nat)
    (feedbackText : Option String) (st : State) (freshId now : Nat) :
    Except ErrResponse (Feedback × State) :=
  if codeSnippetId.isNone || falsy feedbackText then
    .error ⟨400, "Code snippet ID and feedback text are required"⟩
  else
    match findSnippetById st.snippets (codeSnippetId.getD 0) with
    | none => .error ⟨404, "Code snippet not found"⟩
    | some snippet =>
      if snippet.userId == reviewerId then
        .error ⟨403, "You cannot review your own code"⟩
      else
        let fb : Feedback :=
          { id := freshId, codeSnippetId := codeSnippetId.getD 0,
            reviewerId := reviewerId, feedbackText := feedbackText.getD "",
            createdAt := now }
        .ok (fb, { st with feedbacks := st.feedbacks ++ [fb] })

/-- Bearer token payload. Modelled from the spec: the jsonwebtoken
library's `jwt.sign`/`jwt.verify` internals are not under src/; per the
spec a token is a signed, self-contained credential carrying the subject,
issue time and expiry, and the `sig` field models which secret signed it. -/
structure Token where
  sub : Nat
  iat : Nat
  exp : Nat
  sig : Nat
deriving Repr, DecidableEq

/-- Verification failure kinds of the token service: `JsonWebTokenError`
(bad signature or unparsable token) and `TokenExpiredError`. -/
inductive VerifyError where
  | malformed
  | expired
deriving Repr, DecidableEq

/-- Token issuance, the `jwt.sign` call with the one-hour expiry option
as made by the register and login handlers. Modelled from the spec: the
signing internals are not under src/; the absolute expiry is one hour
(3600 seconds) after issuance, as the '1h' option at both call sites
states. -/
def issueToken (identityId now secret : Nat) : Token :=
  { sub := identityId, iat := now, exp := now + 3600, sig := secret }

/-- Token verification `jwt.verify(token, secret)` as called by the
authenticate middleware. Modelled from the spec: the library internals are
not under src/; a token signed with a different secret fails as malformed,
a token whose expiry is at or before the current time fails as expired,
and otherwise the encoded subject id is returned. -/
def verifyToken (t : Token) (now secret : Nat) : Except VerifyError Nat :=
  if t.sig != secret then .error .malformed
  else if t.exp ≤ now then .error .expired
  else .ok t.sub

/-- Distinctness of stored snippet `_id`s (Mongo generates a unique
ObjectId per inserted document). -/
def SnippetIdsUnique (st : State) : Prop :=
  st.snippets.Pairwise (fun a b => a.id ≠ b.id)

/-- Referential integrity: every stored feedback references a stored
snippet. -/
def FeedbackRefsExist (st : State) : Prop :=
  ∀ f ∈ st.feedbacks, ∃ s ∈ st.snippets, s.id = f.codeSnippetId

/-- No self-review: no stored feedback has its reviewer equal to the owner
of the snippet it references. -/
def NoSelfReview (st : State) : Prop :=
  ∀ f ∈ st.feedbacks, ∀ s ∈ st.snippets, s.id = f.codeSnippetId →
    f.reviewerId ≠ s.userId

/-- Combined store invariant carried through the reachability proof. -/
def Inv (st : State) : Prop :=
  SnippetIdsUnique st ∧ FeedbackRefsExist st ∧ NoSelfReview st

/-- States reachable from the empty database through the mutating
handlers: registration, the two code-submission handlers (each insert
receives a fresh ObjectId), and feedback submission. The remaining
endpoints (login, random pick, my-submissions, mine, health, protected)
only read the state. -/
inductive Reachable : State → Prop where
  | init : Reachable ⟨[], [], []⟩
  | registerStep (st : State) (email password : Option String)
      (hash : String → String) (freshId now : Nat) (u : User)
      (users2 : List User) :
      Reachable st →
      register email password st.users hash freshId now = .ok (u, users2) →
      Reachable { st with users := users2 }
  | submitCodeStep (st : State) (userId : Nat) (code language : Option String)
      (freshId now : Nat) (snip : Snippet) (st2 : State) :
      Reachable st →
      (∀ s ∈ st.snippets, s.id ≠ freshId) →
      submitCode userId code language st freshId now = .ok (snip, st2) →
      Reachable st2
  | routerSubmitCodeStep (st : State) (userId : Nat) (code : Option String)
      (freshId now : Nat) :
      Reachable st →
      (∀ s ∈ st.snippets, s.id ≠ freshId) →
      Reachable (routerSubmitCode userId code st freshId now)
  | submitFeedbackStep (st : State) (reviewerId : Nat)
      (codeSnippetId : Option Nat) (feedbackText : Option String)
      (freshId now : Nat) (fb : Feedback) (st2 : State) :
      Reachable st →
      submitFeedback reviewerId codeSnippetId feedbackText st freshId now =
        .ok (fb, st2) →
      Reachable st2

/-! ## Helper lemmas -/

/-- Truthiness of a present string field is non-emptiness. -/
theorem falsy_some_iff {s : String} : falsy (some s) = true ↔ s = "" := by
  simp [falsy, String.isEmpty_iff]

/-- Elimination of a successful `POST /api/code` run: the code field was
truthy and the returned snippet, carrying the fresh id and the submitted
code, was appended to the snippet collection. -/
theorem submitCode_ok_elim {userId : Nat} {code language : Option String}
    {st : State} {freshId now : Nat} {snip : Snippet} {st2 : State}
    (h : submitCode userId code language st freshId now = .ok (snip, st2)) :
    falsy code = false ∧ snip.id = freshId ∧ snip.code = code.getD "" ∧
      snip.language =
        (if falsy language then "javascript" else language.getD "") ∧
      st2 = { st with snippets := st.snippets ++ [snip] } := by
  cases hc : falsy code with
  | true => simp [submitCode, hc] at h
  | false =>
    simp only [submitCode, hc, Bool.false_eq_true, if_false, Except.ok.injEq,
      Prod.mk.injEq] at h
    obtain ⟨h1, h2⟩ := h
    subst h1
    subst h2
    exact ⟨rfl, rfl, rfl, rfl, rfl⟩

/-- Elimination of a successful `POST /api/feedback` run: a snippet with
the submitted id exists, it is not the reviewer's own, and the created
feedback record was appended. -/
theorem submitFeedback_ok_elim {reviewerId : Nat} {codeSnippetId : Option Nat}
    {feedbackText : Option String} {st : State} {freshId now : Nat}
    {fb : Feedback} {st2 : State}
    (h : submitFeedback reviewerId codeSnippetId feedbackText st freshId now =
      .ok (fb, st2)) :
    ∃ snip, findSnippetById st.snippets (codeSnippetId.getD 0) = some snip ∧
      snip.userId ≠ reviewerId ∧
      fb = { id := freshId, codeSnippetId := codeSnippetId.getD 0,
             reviewerId := reviewerId, feedbackText := feedbackText.getD "",
             createdAt := now } ∧
      st2 = { st with feedbacks := st.feedbacks ++ [fb] } := by
  cases hval : (codeSnippetId.isNone || falsy feedbackText) with
  | true => simp [submitFeedback, hval] at h
  | false =>
    cases hfind : findSnippetById st.snippets (codeSnippetId.getD 0) with
    | none => simp [submitFeedback, hval, hfind] at h
    | some snippet =>
      cases hown : (snippet.userId == reviewerId) with
      | true => simp [submitFeedback, hval, hfind, hown] at h
      | false =>
        simp only [submitFeedback, hval, hfind, hown, Bool.false_eq_true,
          if_false, Except.ok.injEq, Prod.mk.injEq] at h
        obtain ⟨h1, h2⟩ := h
        subst h1
        subst h2
        exact ⟨snippet, rfl, ne_of_beq_false hown, rfl, rfl⟩

/-- Membership and id of a `findById` hit. -/
theorem findSnippetById_mem {snippets : List Snippet} {sid : Nat}
    {s : Snippet} (h : findSnippetById snippets sid = some s) :
    s ∈ snippets ∧ s.id = sid := by
  refine ⟨List.mem_of_find?_eq_some h, ?_⟩
  have := List.find?_some h
  simpa using this

/-- Two stored snippets with the same id coincide when ids are unique. -/
theorem eq_of_mem_unique_id {st : State} (hu : SnippetIdsUnique st)
    {a b : Snippet} (ha : a ∈ st.snippets) (hb : b ∈ st.snippets)
    (hid : a.id = b.id) : a = b := by
  by_contra hne
  exact (hu.forall (fun x y h2 => Ne.symm h2) ha hb hne) hid

/-- Appending a snippet with a fresh id preserves the store invariant. -/
theorem inv_append_snippet {st : State} {snip : Snippet}
    (hinv : Inv st) (hfresh : ∀ s ∈ st.snippets, s.id ≠ snip.id) :
    Inv { st with snippets := st.snippets ++ [snip] } := by
  obtain ⟨hu, hr, hn⟩ := hinv
  refine ⟨?_, ?_, ?_⟩
  · unfold SnippetIdsUnique at hu ⊢
    rw [List.pairwise_append]
    refine ⟨hu, List.pairwise_singleton _ _, ?_⟩
    intro a ha b hb
    have : b = snip := by simpa using hb
    subst this
    exact hfresh a ha
  · intro f hf
    obtain ⟨s, hs, hid⟩ := hr f hf
    exact ⟨s, List.mem_append_left _ hs, hid⟩
  · intro f hf s hs hid
    rcases List.mem_append.1 hs with h1 | h1
    · exact hn f hf s h1 hid
    · have hsnip : s = snip := by simpa using h1
      subst hsnip
      obtain ⟨s0, hs0, hid0⟩ := hr f hf
      exact absurd (hid0.trans hid.symm) (hfresh s0 hs0)

/-- Appending a feedback that references a stored snippet not owned by
its reviewer preserves the store invariant. -/
theorem inv_append_feedback {st : State} {fb : Feedback} {snip : Snippet}
    (hinv : Inv st)
    (hfind : findSnippetById st.snippets fb.codeSnippetId = some snip)
    (hown : fb.reviewerId ≠ snip.userId) :
    Inv { st with feedbacks := st.feedbacks ++ [fb] } := by
  obtain ⟨hu, hr, hn⟩ := hinv
  obtain ⟨hmem, hid⟩ := findSnippetById_mem hfind
  refine ⟨hu, ?_, ?_⟩
  · intro f hf
    rcases List.mem_append.1 hf with h1 | h1
    · exact hr f h1
    · have : f = fb := by simpa using h1
      subst this
      exact ⟨snip, hmem, hid⟩
  · intro f hf s hs hid2
    rcases List.mem_append.1 hf with h1 | h1
    · exact hn f h1 s hs hid2
    · have : f = fb := by simpa using h1
      subst this
      have : s = snip := eq_of_mem_unique_id hu hs hmem (hid2.trans hid.symm)
      subst this
      exact hown

/-- Every reachable database state satisfies the combined invariant. -/
theorem inv_reachable (st : State) (h : Reachable st) : Inv st := by
  induction h with
  | init =>
    refine ⟨List.Pairwise.nil, ?_, ?_⟩ <;> intro f hf <;>
      exact absurd hf (List.not_mem_nil f)
  | registerStep st email password hash freshId now u users2 hre heq ih =>
    exact ih
  | submitCodeStep st userId code language freshId now snip st2 hre hfresh heq ih =>
    obtain ⟨-, hid, -, -, hst2⟩ := submitCode_ok_elim heq
    subst hst2
    exact inv_append_snippet ih (fun s hs => by rw [hid]; exact hfresh s hs)
  | routerSubmitCodeStep st userId code freshId now hre hfresh ih =>
    exact inv_append_snippet ih (fun s hs => hfresh s hs)
  | submitFeedbackStep st reviewerId codeSnippetId feedbackText freshId now fb st2 hre heq ih =>
    obtain ⟨snip, hfind, hne, hfb, hst2⟩ := submitFeedback_ok_elim heq
    subst hst2
    have hfind2 : findSnippetById st.snippets fb.codeSnippetId = some snip := by
      rw [hfb]
      exact hfind
    have hown2 : fb.reviewerId ≠ snip.userId := by
      rw [hfb]
      exact Ne.symm hne
    exact inv_append_feedback ih hfind2 hown2

/-- Filtering a filtered list by a finer predicate equals filtering the
original list by it. -/
theorem filter_filter_of_imp {α : Type} (l : List α) (p q : α → Bool)
    (h : ∀ a ∈ l, q a = true → p a = true) :
    (l.filter p).filter q = l.filter q := by
  induction l with
  | nil => rfl
  | cons a t ih =>
    have ht : ∀ a2 ∈ t, q a2 = true → p a2 = true :=
      fun a2 h2 => h a2 (List.mem_cons_of_mem _ h2)
    cases hp : p a with
    | true =>
      cases hq : q a with
      | true => simp [List.filter_cons, hp, hq, ih ht]
      | false => simp [List.filter_cons, hp, hq, ih ht]
    | false =>
      cases hq : q a with
      | true => exact absurd (h a (List.mem_cons_self a t) hq) (by simp [hp])
      | false => simp [List.filter_cons, hp, hq, ih ht]

/-- The my-submissions aggregation joins each owned snippet with exactly
the stored feedbacks whose `codeSnippetId` equals its id: the batched
`$in` prefetch drops nothing relevant. -/
theorem mySubmissions_eq (ownerId : Nat) (st : State) :
    mySubmissions ownerId st =
      (st.snippets.filter (fun s => s.userId == ownerId)).map
        (fun s => (s, st.feedbacks.filter (fun f => f.codeSnippetId == s.id))) := by
  simp only [mySubmissions]
  apply List.map_congr_left
  intro s hs
  have hmem : s.id ∈ (st.snippets.filter
      (fun s2 => s2.userId == ownerId)).map (fun s2 => s2.id) :=
    List.mem_map_of_mem _ hs
  have himp : ∀ f : Feedback, f ∈ st.feedbacks → (f.codeSnippetId == s.id) = true →
      ((st.snippets.filter (fun s2 => s2.userId == ownerId)).map
        (fun s2 => s2.id)).contains f.codeSnippetId = true := by
    intro f _ hf
    have heq : f.codeSnippetId = s.id := by simpa using hf
    rw [heq]
    simpa [List.contains, List.elem_iff] using hmem
  rw [filter_filter_of_imp st.feedbacks _ _ himp]

/-- The snippet components of the my-submissions answer are the owned
snippets in collection order. -/
theorem mySubmissions_fst (ownerId : Nat) (st : State) :
    (mySubmissions ownerId st).map Prod.fst =
      st.snippets.filter (fun s => s.userId == ownerId) := by
  rw [mySubmissions_eq, List.map_map]
  have hcomp : (Prod.fst ∘ fun s : Snippet =>
      (s, st.feedbacks.filter (fun f => f.codeSnippetId == s.id))) = id := rfl
  rw [hcomp, List.map_id]

/-- Members of an insertion step come from the inserted element or the
list. -/
theorem mem_insertByCreatedAtDesc {s t : Snippet} {l : List Snippet}
    (h : t ∈ insertByCreatedAtDesc s l) : t = s ∨ t ∈ l := by
  induction l with
  | nil => simpa [insertByCreatedAtDesc] using h
  | cons a tl ih =>
    simp only [insertByCreatedAtDesc] at h
    by_cases hc : a.createdAt < s.createdAt
    · rw [if_pos hc] at h
      rcases List.mem_cons.1 h with h1 | h1
      · exact Or.inl h1
      · exact Or.inr h1
    · rw [if_neg hc] at h
      rcases List.mem_cons.1 h with h1 | h1
      · exact Or.inr (h1 ▸ List.mem_cons_self a tl)
      · rcases ih h1 with h2 | h2
        · exact Or.inl h2
        · exact Or.inr (List.mem_cons_of_mem _ h2)

/-- Insertion preserves the descending `createdAt` order. -/
theorem sorted_insertByCreatedAtDesc {s : Snippet} {l : List Snippet}
    (h : l.Sorted (fun a b => b.createdAt ≤ a.createdAt)) :
    (insertByCreatedAtDesc s l).Sorted (fun a b => b.createdAt ≤ a.createdAt) := by
  induction l with
  | nil => simp [insertByCreatedAtDesc]
  | cons a tl ih =>
    rw [List.sorted_cons] at h
    obtain ⟨ha, htl⟩ := h
    simp only [insertByCreatedAtDesc]
    by_cases hc : a.createdAt < s.createdAt
    · rw [if_pos hc, List.sorted_cons]
      refine ⟨?_, List.sorted_cons.2 ⟨ha, htl⟩⟩
      intro b hb
      rcases List.mem_cons.1 hb with h1 | h1
      · exact h1 ▸ Nat.le_of_lt hc
      · exact Nat.le_trans (ha b h1) (Nat.le_of_lt hc)
    · rw [if_neg hc, List.sorted_cons]
      refine ⟨?_, ih htl⟩
      intro b hb
      rcases mem_insertByCreatedAtDesc hb with h1 | h1
      · exact h1 ▸ Nat.le_of_not_lt hc
      · exact ha b h1

/-- The router `/mine` sort yields a descending `createdAt` order. -/
theorem sorted_sortByCreatedAtDesc (l : List Snippet) :
    (sortByCreatedAtDesc l).Sorted (fun a b => b.createdAt ≤ a.createdAt) := by
  induction l with
  | nil => simp [sortByCreatedAtDesc]
  | cons a tl ih =>
    simp only [sortByCreatedAtDesc]
    exact sorted_insertByCreatedAtDesc ih

/-! ## Claims -/

/-- Claim C1: for every requester and every snippet store holding at least
one snippet not owned by the requester, and for every outcome of the
random draw, both random-pick handlers return a snippet whose owner is not
the requester — neither ever returns a snippet owned by the requester. -/
theorem pick_never_returns_own (requesterId : Nat) (snippets : List Snippet)
    (draw : Nat) (_hex : ∃ s ∈ snippets, s.userId ≠ requesterId)
    (hdraw : draw < (eligibleSnippets snippets requesterId).length) :
    (∃ s, pickRandom requesterId snippets draw = .ok (some s) ∧
      s.userId ≠ requesterId) ∧
    (∃ s, routerPickRandom requesterId snippets draw = .ok (some s) ∧
      s.userId ≠ requesterId) := by
  have hpos : 0 < (eligibleSnippets snippets requesterId).length :=
    Nat.lt_of_le_of_lt (Nat.zero_le draw) hdraw
  have hlen : (eligibleSnippets snippets requesterId).length ≠ 0 :=
    Nat.pos_iff_ne_zero.mp hpos
  have hget : (eligibleSnippets snippets requesterId)[draw]? =
      some (eligibleSnippets snippets requesterId)[draw] :=
    List.getElem?_eq_getElem hdraw
  have hmem : (eligibleSnippets snippets requesterId)[draw] ∈
      eligibleSnippets snippets requesterId := List.getElem_mem hdraw
  have hne : (eligibleSnippets snippets requesterId)[draw].userId ≠ requesterId := by
    have := (List.mem_filter.1 hmem).2
    simpa using this
  constructor
  · exact ⟨_, by simp [pickRandom, hlen, hget], hne⟩
  · exact ⟨_, by simp [routerPickRandom, hlen, hget], hne⟩

/-- Concrete run of the C1 theorem: requester 1 drawing from a store whose
only snippet belongs to user 2. -/
theorem pick_never_returns_own_witness :
    (∃ s, pickRandom 1 [⟨0, "let x = 1", "javascript", 2, 0⟩] 0 = .ok (some s) ∧
      s.userId ≠ 1) ∧
    (∃ s, routerPickRandom 1 [⟨0, "let x = 1", "javascript", 2, 0⟩] 0 =
      .ok (some s) ∧ s.userId ≠ 1) :=
  pick_never_returns_own 1 [⟨0, "let x = 1", "javascript", 2, 0⟩] 0
    (by decide) (by decide)

/-- Claim C2: in every reachable database state, every persisted feedback
has its reviewer different from the owner of the snippet it references —
feedback creation, the only operation inserting feedback, is guarded by
the ownership check, and no later operation relaxes the invariant. -/
theorem no_self_review_invariant (st : State) (h : Reachable st) :
    NoSelfReview st :=
  (inv_reachable st h).2.2

/-- Concrete run of the C2 theorem: user 1 submits a snippet, user 2
reviews it, and the resulting state has no self-review. -/
theorem no_self_review_invariant_witness :
    NoSelfReview ⟨[], [⟨0, "print(1)", "javascript", 1, 0⟩],
      [⟨1, 0, 2, "looks fine", 1⟩]⟩ :=
  no_self_review_invariant _
    (Reachable.submitFeedbackStep ⟨[], [⟨0, "print(1)", "javascript", 1, 0⟩], []⟩
      2 (some 0) (some "looks fine") 1 1 ⟨1, 0, 2, "looks fine", 1⟩
      ⟨[], [⟨0, "print(1)", "javascript", 1, 0⟩], [⟨1, 0, 2, "looks fine", 1⟩]⟩
      (Reachable.submitCodeStep ⟨[], [], []⟩ 1 (some "print(1)") none 0 0
        ⟨0, "print(1)", "javascript", 1, 0⟩
        ⟨[], [⟨0, "print(1)", "javascript", 1, 0⟩], []⟩
        Reachable.init (by simp) rfl)
      rfl)

/-- Claim C3: feedback submission answers 400 when the snippet id or the
text is absent/empty, 404 when no stored snippet carries the id — the
existence check runs before the ownership check, so a missing snippet
yields 404 and never 403 — 403 when the snippet belongs to the reviewer,
and on success appends the created feedback record and returns it. -/
theorem submitFeedback_error_taxonomy (reviewerId : Nat)
    (codeSnippetId : Option Nat) (feedbackText : Option String)
    (st : State) (freshId now : Nat) :
    ((codeSnippetId.isNone || falsy feedbackText) = true →
      submitFeedback reviewerId codeSnippetId feedbackText st freshId now =
        .error ⟨400, "Code snippet ID and feedback text are required"⟩) ∧
    (∀ sid, codeSnippetId = some sid → falsy feedbackText = false →
      findSnippetById st.snippets sid = none →
      submitFeedback reviewerId codeSnippetId feedbackText st freshId now =
        .error ⟨404, "Code snippet not found"⟩) ∧
    (∀ sid snip, codeSnippetId = some sid → falsy feedbackText = false →
      findSnippetById st.snippets sid = some snip →
      snip.userId = reviewerId →
      submitFeedback reviewerId codeSnippetId feedbackText st freshId now =
        .error ⟨403, "You cannot review your own code"⟩) ∧
    (∀ fb st2,
      submitFeedback reviewerId codeSnippetId feedbackText st freshId now =
        .ok (fb, st2) →
      st2.feedbacks = st.feedbacks ++ [fb] ∧ fb.reviewerId = reviewerId ∧
        fb.codeSnippetId = codeSnippetId.getD 0 ∧
        fb.feedbackText = feedbackText.getD "" ∧ st2.snippets = st.snippets) := by
  refine ⟨?_, ?_, ?_, ?_⟩
  · intro hval
    simp [submitFeedback, hval]
  · intro sid hsid htext hfind
    subst hsid
    simp [submitFeedback, htext, hfind]
  · intro sid snip hsid htext hfind hown
    subst hsid
    subst hown
    simp [submitFeedback, htext, hfind]
  · intro fb st2 h
    obtain ⟨snip, hfind, hne, hfb, hst2⟩ := submitFeedback_ok_elim h
    subst hst2
    refine ⟨rfl, ?_, ?_, ?_, rfl⟩ <;> rw [hfb]

/-- Concrete runs of the C3 theorem covering its four branches. -/
theorem submitFeedback_error_taxonomy_witness :
    submitFeedback 2 none (some "nice") ⟨[], [], []⟩ 0 0 =
      .error ⟨400, "Code snippet ID and feedback text are required"⟩ ∧
    submitFeedback 2 (some 5) (some "nice") ⟨[], [], []⟩ 0 0 =
      .error ⟨404, "Code snippet not found"⟩ ∧
    submitFeedback 1 (some 0) (some "nice")
        ⟨[], [⟨0, "x", "javascript", 1, 0⟩], []⟩ 0 0 =
      .error ⟨403, "You cannot review your own code"⟩ ∧
    (⟨[], [⟨0, "x", "javascript", 1, 0⟩], [⟨3, 0, 2, "nice", 7⟩]⟩ : State).feedbacks =
      ([] : List Feedback) ++ [⟨3, 0, 2, "nice", 7⟩] :=
  ⟨(submitFeedback_error_taxonomy 2 none (some "nice") ⟨[], [], []⟩ 0 0).1 rfl,
   (submitFeedback_error_taxonomy 2 (some 5) (some "nice")
     ⟨[], [], []⟩ 0 0).2.1 5 rfl rfl rfl,
   (submitFeedback_error_taxonomy 1 (some 0) (some "nice")
     ⟨[], [⟨0, "x", "javascript", 1, 0⟩], []⟩ 0 0).2.2.1 0
     ⟨0, "x", "javascript", 1, 0⟩ rfl rfl rfl rfl,
   ((submitFeedback_error_taxonomy 2 (some 0) (some "nice")
     ⟨[], [⟨0, "x", "javascript", 1, 0⟩], []⟩ 3 7).2.2.2
     ⟨3, 0, 2, "nice", 7⟩
     ⟨[], [⟨0, "x", "javascript", 1, 0⟩], [⟨3, 0, 2, "nice", 7⟩]⟩ rfl).1⟩

/-- Claim C4 counterexample: the router `GET /random` handler — one of
the two cited pick-for-review implementations — answers a 200 success
with a null code payload when the requester owns every snippet, which is
not the NotFound error response the claim states. -/
theorem routerPickRandom_empty_is_ok_none :
    routerPickRandom 1 [⟨0, "x", "javascript", 1, 0⟩] 0 = .ok none ∧
    (Except.ok none : Except ErrResponse (Option Snippet)) ≠
      .error ⟨404, "No code available for review"⟩ :=
  ⟨rfl, fun h => Except.noConfusion h⟩

/-- Claim C4 (amended): with no eligible snippet, the server.js
`GET /api/code/random` handler answers the 404 NotFound response, the same
on every draw (deterministically); the router `GET /random` variant
instead signals the empty case as a 200 success carrying a null code
payload rather than an error. -/
theorem pick_empty_deterministic (requesterId : Nat) (snippets : List Snippet)
    (d1 d2 : Nat) (h : eligibleSnippets snippets requesterId = []) :
    pickRandom requesterId snippets d1 =
      .error ⟨404, "No code available for review"⟩ ∧
    pickRandom requesterId snippets d2 = pickRandom requesterId snippets d1 ∧
    routerPickRandom requesterId snippets d1 = .ok none := by
  have hlen : (eligibleSnippets snippets requesterId).length = 0 := by
    rw [h]
    rfl
  refine ⟨?_, ?_, ?_⟩ <;> simp [pickRandom, routerPickRandom, hlen]

/-- Concrete run of the C4 amended theorem: requester 1 owns the only
stored snippet. -/
theorem pick_empty_deterministic_witness :
    pickRandom 1 [⟨0, "x", "javascript", 1, 0⟩] 0 =
      .error ⟨404, "No code available for review"⟩ ∧
    pickRandom 1 [⟨0, "x", "javascript", 1, 0⟩] 7 =
      pickRandom 1 [⟨0, "x", "javascript", 1, 0⟩] 0 ∧
    routerPickRandom 1 [⟨0, "x", "javascript", 1, 0⟩] 0 = .ok none :=
  pick_empty_deterministic 1 [⟨0, "x", "javascript", 1, 0⟩] 0 7 (by decide)

/-- Claim C5: the my-submissions aggregation returns each snippet owned by
the requester exactly once, in collection order, each paired with exactly
the stored feedbacks whose `codeSnippetId` equals that snippet's id — no
feedback under a wrong snippet, none duplicated, none dropped — and a
snippet with no feedback carries the empty list, never a missing field. -/
theorem mySubmissions_join (ownerId : Nat) (st : State) :
    mySubmissions ownerId st =
      (st.snippets.filter (fun s => s.userId == ownerId)).map
        (fun s => (s, st.feedbacks.filter (fun f => f.codeSnippetId == s.id))) :=
  mySubmissions_eq ownerId st

/-- Claim C6 counterexample: the router `GET /mine` handler sorts by
`createdAt` descending; with two owned snippets stored in creation order
(createdAt 0, then 5) it returns the later-created snippet first, not the
earliest-first order the claim states. -/
theorem routerMine_newest_first :
    routerMine 1 ⟨[], [⟨0, "a", "javascript", 1, 0⟩,
        ⟨1, "b", "javascript", 1, 5⟩], []⟩ =
      [⟨1, "b", "javascript", 1, 5⟩, ⟨0, "a", "javascript", 1, 0⟩] ∧
    routerMine 1 ⟨[], [⟨0, "a", "javascript", 1, 0⟩,
        ⟨1, "b", "javascript", 1, 5⟩], []⟩ ≠
      [⟨0, "a", "javascript", 1, 0⟩, ⟨1, "b", "javascript", 1, 5⟩] := by
  constructor
  · rfl
  · decide

/-- Claim C6 (amended): when the snippet collection is stored in creation
order (createdAt ascending), the server.js my-submissions listing
preserves that order, earliest-created snippet first; the router `/mine`
variant instead returns its snippets newest first (createdAt
descending). -/
theorem mySubmissions_order (ownerId : Nat) (st : State)
    (h : st.snippets.Sorted (fun a b => a.createdAt ≤ b.createdAt)) :
    ((mySubmissions ownerId st).map Prod.fst).Sorted
      (fun a b => a.createdAt ≤ b.createdAt) ∧
    (routerMine ownerId st).Sorted (fun a b => b.createdAt ≤ a.createdAt) := by
  constructor
  · rw [mySubmissions_fst]
    exact List.Pairwise.sublist (List.filter_sublist _) h
  · simp only [routerMine]
    exact sorted_sortByCreatedAtDesc _

/-- Concrete run of the C6 amended theorem on a two-snippet store in
creation order. -/
theorem mySubmissions_order_witness :
    ((mySubmissions 1 ⟨[], [⟨0, "a", "javascript", 1, 0⟩,
        ⟨1, "b", "javascript", 1, 5⟩], []⟩).map Prod.fst).Sorted
      (fun a b => a.createdAt ≤ b.createdAt) ∧
    (routerMine 1 ⟨[], [⟨0, "a", "javascript", 1, 0⟩,
        ⟨1, "b", "javascript", 1, 5⟩], []⟩).Sorted
      (fun a b => b.createdAt ≤ a.createdAt) :=
  mySubmissions_order 1 ⟨[], [⟨0, "a", "javascript", 1, 0⟩,
    ⟨1, "b", "javascript", 1, 5⟩], []⟩ (by decide)

/-- Claim C7: a token issued for an identity carries an absolute expiry of
exactly one hour (3600 seconds) after issuance; verification with the
signing secret returns the encoded identity whenever the current time is
before the expiry, and fails with the expired error whenever the current
time is at or past the expiry instant. -/
theorem token_verify_roundtrip (identityId issuedAt now secret : Nat) :
    (issueToken identityId issuedAt secret).exp = issuedAt + 3600 ∧
    (now < issuedAt + 3600 →
      verifyToken (issueToken identityId issuedAt secret) now secret =
        .ok identityId) ∧
    (issuedAt + 3600 ≤ now →
      verifyToken (issueToken identityId issuedAt secret) now secret =
        .error .expired) := by
  refine ⟨rfl, ?_, ?_⟩
  · intro h
    simp [verifyToken, issueToken, Nat.not_le.mpr h]
  · intro h
    simp [verifyToken, issueToken, h]

/-- Concrete runs of the C7 theorem: a token issued at 1000 verifies at
2000 and is expired at 4600. -/
theorem token_verify_roundtrip_witness :
    (issueToken 42 1000 7).exp = 1000 + 3600 ∧
    verifyToken (issueToken 42 1000 7) 2000 7 = .ok 42 ∧
    verifyToken (issueToken 42 1000 7) 4600 7 = .error .expired :=
  ⟨(token_verify_roundtrip 42 1000 2000 7).1,
   (token_verify_roundtrip 42 1000 2000 7).2.1 (by decide),
   (token_verify_roundtrip 42 1000 4600 7).2.2 (by decide)⟩

/-- Claim C8: login with a non-matching password against a store whose
first email hit is some user fails with the 401 "Invalid credentials"
response, and a store lacking the email produces the identical error —
same kind, same status, same message — so the login error leaks nothing
about account existence. -/
theorem login_no_existence_leak (email pwd : String) (users1 users2 : List User)
    (bcryptCompare : String → String → Bool)
    (he : email ≠ "") (hp : pwd ≠ "") (u : User)
    (hfind : users1.find? (fun x => x.email == email) = some u)
    (hwrong : bcryptCompare pwd u.password = false)
    (habsent : users2.find? (fun x => x.email == email) = none) :
    login (some email) (some pwd) users1 bcryptCompare =
      .error ⟨401, "Invalid credentials"⟩ ∧
    login (some email) (some pwd) users2 bcryptCompare =
      login (some email) (some pwd) users1 bcryptCompare := by
  have hef : falsy (some email) = false :=
    Bool.eq_false_iff.mpr (fun hbad => he ((String.isEmpty_iff email).mp hbad))
  have hpf : falsy (some pwd) = false :=
    Bool.eq_false_iff.mpr (fun hbad => hp ((String.isEmpty_iff pwd).mp hbad))
  have h1 : login (some email) (some pwd) users1 bcryptCompare =
      .error ⟨401, "Invalid credentials"⟩ := by
    simp [login, hef, hpf, hfind, hwrong]
  have h2 : login (some email) (some pwd) users2 bcryptCompare =
      .error ⟨401, "Invalid credentials"⟩ := by
    simp [login, hef, hpf, habsent]
  exact ⟨h1, h2.trans h1.symm⟩

/-- Concrete run of the C8 theorem: the same wrong-password login against
a store holding the email and against an empty store. -/
theorem login_no_existence_leak_witness :
    login (some "a@b.c") (some "wrong") [⟨1, "a@b.c", "hashed", 0⟩]
        (fun p h2 => p == h2) = .error ⟨401, "Invalid credentials"⟩ ∧
    login (some "a@b.c") (some "wrong") [] (fun p h2 => p == h2) =
      login (some "a@b.c") (some "wrong") [⟨1, "a@b.c", "hashed", 0⟩]
        (fun p h2 => p == h2) :=
  login_no_existence_leak "a@b.c" "wrong" [⟨1, "a@b.c", "hashed", 0⟩] []
    (fun p h2 => p == h2) (by decide) (by decide) ⟨1, "a@b.c", "hashed", 0⟩
    (by decide) (by decide) rfl

/-- Resolution of a truthy optional code field: its stored text is
non-empty. -/
theorem getD_ne_empty_of_falsy_false {code : Option String}
    (hc : falsy code = false) : code.getD "" ≠ "" := by
  cases code with
  | none => simp [falsy] at hc
  | some s =>
    intro hs
    have hs2 : s = "" := by simpa using hs
    subst hs2
    exact absurd hc (by decide)

/-- Claim C9 counterexample: the router `POST /` code-submission handler
performs no input validation, and its Code model (src/models/Code.js)
puts no required validator on the code field, so a submission with an
absent code field does not fail at all — the handler persists a snippet
with empty content and answers 201, contradicting both the ValidationError
failure and the guarantee that a snippet is only ever persisted with
non-empty content. -/
theorem routerSubmitCode_persists_empty :
    routerSubmitCode 1 none ⟨[], [], []⟩ 0 0 =
      ⟨[], [⟨0, "", "javascript", 1, 0⟩], []⟩ ∧
    (⟨0, "", "javascript", 1, 0⟩ : Snippet).code = "" :=
  ⟨rfl, rfl⟩

/-- Resolution of a falsy optional code field: its stored text is the
empty string. -/
theorem getD_empty_of_falsy_true {code : Option String}
    (hc : falsy code = true) : code.getD "" = "" := by
  cases code with
  | none => rfl
  | some s => simpa [falsy, String.isEmpty_iff] using hc

/-- Claim C9 (amended): the server.js `POST /api/code` handler answers the
400 validation response on an absent or empty code field and persists
nothing, and any snippet it persists has non-empty content; the router
`POST /` variant performs no validation — its Code model's code field has
no required validator — and persists every submission, appending exactly
one snippet carrying the submitted content, which is the empty text
whenever the code field was absent or empty, so the non-empty-content
guarantee holds only for the server.js handler. -/
theorem submitCode_validation (userId : Nat) (code language : Option String)
    (st : State) (freshId now : Nat) :
    (falsy code = true →
      submitCode userId code language st freshId now =
        .error ⟨400, "Code is required"⟩ ∧
      runSubmitCode userId code language st freshId now = st) ∧
    (∀ snip st2, submitCode userId code language st freshId now =
        .ok (snip, st2) →
      snip.code ≠ "" ∧ st2.snippets = st.snippets ++ [snip]) ∧
    (routerSubmitCode userId code st freshId now).snippets =
      st.snippets ++ [⟨freshId, code.getD "", "javascript", userId, now⟩] ∧
    (falsy code = true →
      (routerSubmitCode userId code st freshId now).snippets =
        st.snippets ++ [⟨freshId, "", "javascript", userId, now⟩]) := by
  refine ⟨?_, ?_, rfl, ?_⟩
  · intro h
    exact ⟨by simp [submitCode, h], by simp [runSubmitCode, submitCode, h]⟩
  · intro snip st2 h
    obtain ⟨hc, -, hcode, -, hst2⟩ := submitCode_ok_elim h
    subst hst2
    refine ⟨?_, rfl⟩
    rw [hcode]
    exact getD_ne_empty_of_falsy_false hc
  · intro h
    show st.snippets ++ [⟨freshId, code.getD "", "javascript", userId, now⟩] =
      st.snippets ++ [⟨freshId, "", "javascript", userId, now⟩]
    rw [getD_empty_of_falsy_true h]

/-- Concrete runs of the C9 amended theorem: an empty submission through
both handlers, and one successful server.js submission. -/
theorem submitCode_validation_witness :
    (submitCode 1 none none ⟨[], [], []⟩ 0 0 =
        .error ⟨400, "Code is required"⟩ ∧
      runSubmitCode 1 none none ⟨[], [], []⟩ 0 0 = ⟨[], [], []⟩) ∧
    ((⟨0, "x", "javascript", 1, 0⟩ : Snippet).code ≠ "" ∧
      (⟨[], [⟨0, "x", "javascript", 1, 0⟩], []⟩ : State).snippets =
        ([] : List Snippet) ++ [⟨0, "x", "javascript", 1, 0⟩]) ∧
    (routerSubmitCode 1 none ⟨[], [], []⟩ 0 0).snippets =
      ([] : List Snippet) ++ [⟨0, "", "javascript", 1, 0⟩] :=
  ⟨(submitCode_validation 1 none none ⟨[], [], []⟩ 0 0).1 rfl,
   (submitCode_validation 1 (some "x") none ⟨[], [], []⟩ 0 0).2.1
     ⟨0, "x", "javascript", 1, 0⟩ ⟨[], [⟨0, "x", "javascript", 1, 0⟩], []⟩ rfl,
   (submitCode_validation 1 none none ⟨[], [], []⟩ 0 0).2.2.2 rfl⟩

/-- Claim C10: a snippet created by the server.js submission handler with
an absent or empty language tag carries the language "javascript"; with a
non-empty tag supplied it carries exactly that tag. -/
theorem submitCode_language_default (userId : Nat)
    (code language : Option String) (st : State) (freshId now : Nat)
    (snip : Snippet) (st2 : State)
    (h : submitCode userId code language st freshId now = .ok (snip, st2)) :
    (falsy language = true → snip.language = "javascript") ∧
    (∀ tag, language = some tag → tag ≠ "" → snip.language = tag) := by
  obtain ⟨-, -, -, hlang, -⟩ := submitCode_ok_elim h
  constructor
  · intro hl
    rw [hlang, if_pos hl]
  · intro tag htag hne
    subst htag
    have hl : falsy (some tag) = false :=
      Bool.eq_false_iff.mpr (fun hbad => hne ((String.isEmpty_iff tag).mp hbad))
    rw [hlang, if_neg (by simp [hl]), Option.getD_some]

/-- Concrete runs of the C10 theorem: one submission without a language
tag and one with the tag "python". -/
theorem submitCode_language_default_witness :
    (⟨0, "x", "javascript", 1, 0⟩ : Snippet).language = "javascript" ∧
    (⟨1, "y", "python", 1, 0⟩ : Snippet).language = "python" :=
  ⟨(submitCode_language_default 1 (some "x") none ⟨[], [], []⟩ 0 0
      ⟨0, "x", "javascript", 1, 0⟩ ⟨[], [⟨0, "x", "javascript", 1, 0⟩], []⟩
      rfl).1 rfl,
   (submitCode_language_default 1 (some "y") (some "python") ⟨[], [], []⟩ 1 0
      ⟨1, "y", "python", 1, 0⟩ ⟨[], [⟨1, "y", "python", 1, 0⟩], []⟩ rfl).2
      "python" rfl (by decide)⟩

end CodeReview
